import Mathlib

/-!
Shallow embedding of the Pixelate canvas ledger and snapshot engine.

The canvas model follows `PixelateUpgradeable.sol` (mutable `cooldown`,
`onlyOwner` admin); the plain `Pixelate.sol` contract is the special case in
which `cooldown` is the constant 60 and there is no admin setter, and its
`placePixel` / `getPixel` / `canPlace` / `getRemainingCooldown` /
`getCanvasHash` bodies are textually identical.  The snapshot models follow
`PixelateSnapshots.sol` (`createAndMint`) and
`PixelateSnapshotsUpgradeable.sol` (`mint`).

Modelling conventions:
- `uint256` quantities (coordinates, timestamps, wei amounts, ids) are `Nat`;
  Solidity 0.8 checked arithmetic never wraps, and no reachable computation in
  these contracts exceeds `2 ^ 256` for realizable timestamps, so `Nat`
  addition is faithful where it is used.
- the `uint40(block.timestamp)` store in `placePixel` is modelled with an
  explicit `now % 2 ^ 40` truncation.
- addresses are `Nat`, with `0` standing for the zero address (the
  never-written sentinel); the EVM mappings with zero defaults are total
  functions initialized to the zero value.
- a revert is the `Except.error` branch; the error branch carries no state, so
  the post-call chain state of a reverted call is the unchanged pre-call state
  (EVM rollback).  The `...Run` wrappers below make that post-call state
  explicit.
- `keccak256` is kept abstract: hashing definitions are parametrized by an
  arbitrary `digest : List Nat → Nat` applied to the exact byte sequence the
  contract hashes.
- view functions are pure functions of the state, mirroring Solidity `view`.
-/

namespace Pixelate

/-- Grid width in cells (`WIDTH`, 64 in both canvas contracts). -/
def WIDTH : Nat := 64

/-- Grid height in cells (`HEIGHT`, 64 in both canvas contracts). -/
def HEIGHT : Nat := 64

/-- Number of palette entries (`PALETTE_SIZE`, 32 in both canvas contracts). -/
def PALETTE_SIZE : Nat := 32

/-- One grid cell: `uint8 color`, `address lastPlacer` (0 is the zero
address), `uint40 lastPlacedAt`. -/
structure Pixel where
  color : Nat
  lastPlacer : Nat
  lastPlacedAt : Nat
deriving DecidableEq

/-- Canvas contract storage: the owner, the cooldown duration, the
`pixels` mapping by linear index and the per-actor `lastActionTime`
mapping (both total with zero defaults, as EVM mappings are). -/
structure State where
  owner : Nat
  cooldown : Nat
  pixels : Nat → Pixel
  lastActionTime : Nat → Nat

/-- Canvas revert reasons, including the `onlyOwner` failure of the
admin setter (OpenZeppelin `OwnableUpgradeable` reverts when the caller
is not the owner; the spec calls this `NotAuthorized`). -/
inductive Err where
  | XOutOfBounds (x max : Nat)
  | YOutOfBounds (y max : Nat)
  | InvalidColor (color maxColors : Nat)
  | CooldownActive (remainingSeconds : Nat)
  | NotAuthorized
deriving DecidableEq

/-- State right after `initialize(initialOwner, initialCooldown)`:
every pixel is the zero struct and no actor has a recorded action. -/
def initState (owner cooldown : Nat) : State :=
  { owner := owner, cooldown := cooldown,
    pixels := fun _ => { color := 0, lastPlacer := 0, lastPlacedAt := 0 },
    lastActionTime := fun _ => 0 }

/-- `placePixel(x, y, color)` called by `sender` at `block.timestamp = now`:
bounds checks, color check, cooldown check, then the two storage writes, in
the source order. -/
def placePixel (s : State) (sender now x y color : Nat) : Except Err State :=
  if WIDTH ≤ x then .error (.XOutOfBounds x WIDTH)
  else if HEIGHT ≤ y then .error (.YOutOfBounds y HEIGHT)
  else if PALETTE_SIZE ≤ color then .error (.InvalidColor color PALETTE_SIZE)
  else if s.lastActionTime sender ≠ 0 ∧ now < s.lastActionTime sender + s.cooldown then
    .error (.CooldownActive (s.lastActionTime sender + s.cooldown - now))
  else
    .ok { s with
      pixels := fun i =>
        if i = y * WIDTH + x then
          { color := color, lastPlacer := sender, lastPlacedAt := now % 2 ^ 40 }
        else s.pixels i,
      lastActionTime := fun a => if a = sender then now else s.lastActionTime a }

/-- `getPixel(x, y)`: the source performs no bounds check and simply reads
`pixels[y * WIDTH + x]`; the `Except` type records that the function has no
revert path. -/
def getPixel (s : State) (x y : Nat) : Except Err Pixel :=
  .ok (s.pixels (y * WIDTH + x))

/-- `canPlace(user)` at `block.timestamp = now`. -/
def canPlace (s : State) (user now : Nat) : Bool :=
  decide (s.lastActionTime user = 0) ||
    decide (s.lastActionTime user + s.cooldown ≤ now)

/-- `getRemainingCooldown(user)` at `block.timestamp = now`. -/
def getRemainingCooldown (s : State) (user now : Nat) : Nat :=
  if s.lastActionTime user = 0 then 0
  else if s.lastActionTime user + s.cooldown ≤ now then 0
  else s.lastActionTime user + s.cooldown - now

/-- The byte sequence `getCanvasHash` packs: the `color` byte of each of the
`WIDTH * HEIGHT` pixels in linear-index order. -/
def canvasBytes (s : State) : List Nat :=
  (List.range (WIDTH * HEIGHT)).map (fun i => (s.pixels i).color)

/-- `getCanvasHash()`: the digest (keccak256 in the source, abstracted here)
of the packed color bytes. -/
def getCanvasHash (digest : List Nat → Nat) (s : State) : Nat :=
  digest (canvasBytes s)

/-- `setCooldown(newCooldown)` called by `sender`: `onlyOwner`, then replaces
the duration and emits `CooldownUpdated(oldCooldown, newCooldown)` (the
returned pair). -/
def setCooldown (s : State) (sender newCooldown : Nat) :
    Except Err (State × Nat × Nat) :=
  if sender ≠ s.owner then .error .NotAuthorized
  else .ok ({ s with cooldown := newCooldown }, s.cooldown, newCooldown)

/-- Post-call chain state of a `placePixel` transaction: the new state on
success, the rolled-back pre-call state on revert. -/
def placePixelRun (s : State) (sender now x y color : Nat) : State :=
  match placePixel s sender now x y color with
  | .ok t => t
  | .error _ => s

/-- Post-call chain state of a `setCooldown` transaction. -/
def setCooldownRun (s : State) (sender newCooldown : Nat) : State :=
  match setCooldown s sender newCooldown with
  | .ok t => t.1
  | .error _ => s

/-- The cell provenance invariant of the spec: a cell has a zero write time
exactly when it has no recorded writer. -/
def CellInv (s : State) : Prop :=
  ∀ i, (s.pixels i).lastPlacedAt = 0 ↔ (s.pixels i).lastPlacer = 0

end Pixelate

namespace PixelateSnapshots

/-- One snapshot record of `PixelateSnapshots.sol`; `imageURI` is kept as an
opaque byte list (only emptiness is ever inspected). -/
structure Snapshot where
  blockNumber : Nat
  timestamp : Nat
  canvasHash : Nat
  imageURI : List Nat
  creator : Nat
deriving DecidableEq

/-- Storage of `PixelateSnapshots.sol`.  `snapshots` uses `none` for the
never-written zero struct; `hashToSnapshot` and `tokenToSnapshot` keep the
mapping's zero default, which the contract uses as the absent sentinel
(snapshot ids start at 1, so 0 never denotes a real snapshot).  `balance` is
the contract's accumulated ether balance. -/
structure SState where
  owner : Nat
  nextTokenId : Nat
  nextSnapshotId : Nat
  mintPrice : Nat
  snapshots : Nat → Option Snapshot
  tokenToSnapshot : Nat → Nat
  hashToSnapshot : Nat → Nat
  userSnapshots : Nat → List Nat
  balance : Nat

/-- Revert reasons of `PixelateSnapshots.sol` (plus `NotAuthorized` for the
`onlyOwner` modifier's failure). -/
inductive SErr where
  | InvalidImageURI
  | InsufficientPayment (required provided : Nat)
  | SnapshotAlreadyExists (canvasHash existingSnapshotId : Nat)
  | NotAuthorized
  | WithdrawFailed
deriving DecidableEq

/-- Storage right after the constructor: counters at zero, mint price
`0.001 ether` (`10 ^ 15` wei), all mappings at their zero defaults. -/
def initS (owner : Nat) : SState :=
  { owner := owner, nextTokenId := 0, nextSnapshotId := 0, mintPrice := 10 ^ 15,
    snapshots := fun _ => none, tokenToSnapshot := fun _ => 0,
    hashToSnapshot := fun _ => 0, userSnapshots := fun _ => [],
    balance := 0 }

/-- `createAndMint(imageURI)` called by `sender` with `msg.value = value`;
`canvasHash` is the value returned by the external `PIXELATE.getCanvasHash()`
call and `bn` / `ts` are `block.number` / `block.timestamp`.  Returns the new
state together with `(snapshotId, tokenId)`.  Snapshot ids are pre-increment
(first id 1) and token ids post-increment (first id 0), as in the source. -/
def createAndMint (s : SState) (sender value : Nat) (imageURI : List Nat)
    (canvasHash bn ts : Nat) : Except SErr (SState × Nat × Nat) :=
  if imageURI.length = 0 then .error .InvalidImageURI
  else if value < s.mintPrice then .error (.InsufficientPayment s.mintPrice value)
  else if s.hashToSnapshot canvasHash ≠ 0 then
    .error (.SnapshotAlreadyExists canvasHash (s.hashToSnapshot canvasHash))
  else
    .ok ({ s with
      nextSnapshotId := s.nextSnapshotId + 1,
      nextTokenId := s.nextTokenId + 1,
      snapshots := fun i =>
        if i = s.nextSnapshotId + 1 then
          some { blockNumber := bn, timestamp := ts, canvasHash := canvasHash,
                 imageURI := imageURI, creator := sender }
        else s.snapshots i,
      hashToSnapshot := fun h =>
        if h = canvasHash then s.nextSnapshotId + 1 else s.hashToSnapshot h,
      userSnapshots := fun u =>
        if u = sender then s.userSnapshots u ++ [s.nextSnapshotId + 1]
        else s.userSnapshots u,
      tokenToSnapshot := fun t =>
        if t = s.nextTokenId then s.nextSnapshotId + 1 else s.tokenToSnapshot t,
      balance := s.balance + value },
      s.nextSnapshotId + 1, s.nextTokenId)

/-- `setMintPrice(newPrice)`: `onlyOwner`, then replaces the price. -/
def setMintPrice (s : SState) (sender newPrice : Nat) : Except SErr SState :=
  if sender ≠ s.owner then .error .NotAuthorized
  else .ok { s with mintPrice := newPrice }

/-- `withdraw()`: `onlyOwner`, then transfers the whole balance to the
caller; `transferOk` models whether the recipient accepts the low-level
call (`WithdrawFailed` reverts everything otherwise). -/
def withdraw (s : SState) (sender : Nat) (transferOk : Bool) :
    Except SErr SState :=
  if sender ≠ s.owner then .error .NotAuthorized
  else if transferOk then .ok { s with balance := 0 }
  else .error .WithdrawFailed

/-- Post-call chain state of a `createAndMint` transaction. -/
def createAndMintRun (s : SState) (sender value : Nat) (imageURI : List Nat)
    (canvasHash bn ts : Nat) : SState :=
  match createAndMint s sender value imageURI canvasHash bn ts with
  | .ok t => t.1
  | .error _ => s

/-- Post-call chain state of a `setMintPrice` transaction. -/
def setMintPriceRun (s : SState) (sender newPrice : Nat) : SState :=
  match setMintPrice s sender newPrice with
  | .ok t => t
  | .error _ => s

/-- Post-call chain state of a `withdraw` transaction. -/
def withdrawRun (s : SState) (sender : Nat) (transferOk : Bool) : SState :=
  match withdraw s sender transferOk with
  | .ok t => t
  | .error _ => s

end PixelateSnapshots

namespace PixelateSnapshotsUpgradeable

/-- `TOTAL_PIXELS` (4096): required length of the supplied pixel payload. -/
def TOTAL_PIXELS : Nat := 64 * 64

/-- One snapshot record of `PixelateSnapshotsUpgradeable.sol` (no image URI;
the pixel payload is stored separately). -/
structure USnapshot where
  blockNumber : Nat
  timestamp : Nat
  canvasHash : Nat
  creator : Nat
deriving DecidableEq

/-- Storage of `PixelateSnapshotsUpgradeable.sol`: token ids double as
snapshot ids (`hashToToken` maps a content hash to the token that captured
it, 0 meaning absent; token ids start at 1). -/
structure UState where
  owner : Nat
  nextTokenId : Nat
  mintPrice : Nat
  snapshots : Nat → Option USnapshot
  pixelData : Nat → List Nat
  hashToToken : Nat → Nat
  userTokens : Nat → List Nat
  balance : Nat

/-- Revert reasons of `PixelateSnapshotsUpgradeable.sol`. -/
inductive UErr where
  | SnapshotAlreadyExists (canvasHash existingTokenId : Nat)
  | InsufficientPayment (required provided : Nat)
  | WithdrawFailed
  | InvalidPixelDataLength (provided expected : Nat)
  | NotAuthorized
deriving DecidableEq

/-- Storage right after `initialize`: mint price 0 (free mint by default),
counter at zero, mappings at their zero defaults. -/
def initU (owner : Nat) : UState :=
  { owner := owner, nextTokenId := 0, mintPrice := 0,
    snapshots := fun _ => none, pixelData := fun _ => [],
    hashToToken := fun _ => 0, userTokens := fun _ => [], balance := 0 }

/-- `mint(pixelData)` called by `sender` with `msg.value = value`; the
content hash is `digest` (keccak256 in the source) of the supplied payload
`data`, independent of the live grid.  Returns the new state and the token
id (pre-increment, first id 1). -/
def mint (digest : List Nat → Nat) (s : UState) (sender value : Nat)
    (data : List Nat) (bn ts : Nat) : Except UErr (UState × Nat) :=
  if value < s.mintPrice then .error (.InsufficientPayment s.mintPrice value)
  else if data.length ≠ TOTAL_PIXELS then
    .error (.InvalidPixelDataLength data.length TOTAL_PIXELS)
  else if s.hashToToken (digest data) ≠ 0 then
    .error (.SnapshotAlreadyExists (digest data) (s.hashToToken (digest data)))
  else
    .ok ({ s with
      nextTokenId := s.nextTokenId + 1,
      snapshots := fun i =>
        if i = s.nextTokenId + 1 then
          some { blockNumber := bn, timestamp := ts,
                 canvasHash := digest data, creator := sender }
        else s.snapshots i,
      pixelData := fun i =>
        if i = s.nextTokenId + 1 then data else s.pixelData i,
      hashToToken := fun h =>
        if h = digest data then s.nextTokenId + 1 else s.hashToToken h,
      userTokens := fun u =>
        if u = sender then s.userTokens u ++ [s.nextTokenId + 1]
        else s.userTokens u,
      balance := s.balance + value },
      s.nextTokenId + 1)

/-- Post-call chain state of a `mint` transaction. -/
def mintRun (digest : List Nat → Nat) (s : UState) (sender value : Nat)
    (data : List Nat) (bn ts : Nat) : UState :=
  match mint digest s sender value data bn ts with
  | .ok t => t.1
  | .error _ => s

end PixelateSnapshotsUpgradeable

open Pixelate PixelateSnapshots PixelateSnapshotsUpgradeable

/-- Reflexive-transitive closure of a step relation, used to talk about the
states a contract can reach from a given state. -/
inductive ReachFrom {α : Type} (step : α → α → Prop) : α → α → Prop
  | refl (a : α) : ReachFrom step a a
  | tail {a b c : α} : ReachFrom step a b → step b c → ReachFrom step a c

/-- One successful transaction against `PixelateSnapshots`, with arbitrary
caller, payment and environment inputs. -/
inductive SnapStep : SState → SState → Prop
  | create {s t : SState} {sender value : Nat} {uri : List Nat}
      {ch bn ts sid tid : Nat} :
      createAndMint s sender value uri ch bn ts = .ok (t, sid, tid) →
      SnapStep s t
  | setPrice {s t : SState} {sender p : Nat} :
      setMintPrice s sender p = .ok t → SnapStep s t
  | withdrawStep {s t : SState} {sender : Nat} {transferOk : Bool} :
      withdraw s sender transferOk = .ok t → SnapStep s t

/-- States of `PixelateSnapshots` reachable from a freshly constructed
contract by successful transactions. -/
def SnapReachable (s : SState) : Prop :=
  ∃ owner, ReachFrom SnapStep (initS owner) s

/-- Bookkeeping invariant of the snapshot registry: ids strictly above the
snapshot counter (and id 0) are unassigned, and token ids at or above the
token counter carry no snapshot binding. -/
def SnapInv (s : SState) : Prop :=
  (∀ id, s.nextSnapshotId < id → s.snapshots id = none) ∧
  s.snapshots 0 = none ∧
  (∀ t, s.nextTokenId ≤ t → s.tokenToSnapshot t = 0)

/-- Concrete canvas: owner 7, cooldown 60 (the plain contract's constant). -/
def pixInit : State := Pixelate.initState 7 60

/-- Concrete canvas after actor 1 successfully places color 3 at (0, 0) at
time 100. -/
def sAfter : State := placePixelRun pixInit 1 100 0 0 3

/-- Concrete canvas after actor 1 places at time 0 (the cooldown sentinel
collides with a real write time). -/
def pixT0 : State := placePixelRun pixInit 1 0 0 0 1

/-- Concrete canvas after actor 1 places at time `2 ^ 40` (the `uint40`
store truncates the timestamp to 0). -/
def pixT40 : State := placePixelRun pixInit 1 (2 ^ 40) 0 0 1

/-- Concrete canvas after the zero address places at time 5 (a nonzero
write time recorded with the never-written writer sentinel). -/
def pixA0 : State := placePixelRun pixInit 0 5 0 0 1

/-- Canvas with the same colors as `pixInit` everywhere but nonzero
provenance recorded on cell 0. -/
def tProv : State :=
  { pixInit with pixels := fun i =>
      if i = 0 then { color := 0, lastPlacer := 5, lastPlacedAt := 9 }
      else { color := 0, lastPlacer := 0, lastPlacedAt := 0 } }

/-- A concrete stand-in digest. -/
def digestFold (l : List Nat) : Nat :=
  l.foldl (fun a b => a * 256 + b) 0

/-- Concrete snapshot registry: owner 7, freshly constructed. -/
def snapInit : SState := initS 7

/-- Result of a first successful `createAndMint` against `snapInit`. -/
def snapOut : SState × Nat × Nat :=
  match createAndMint snapInit 1 (10 ^ 15) [1] 42 5 5 with
  | .ok o => o
  | .error _ => (snapInit, 0, 0)

/-- Result of a second successful `createAndMint`, from `snapOut`'s state,
with a different canvas hash. -/
def snapOut2 : SState × Nat × Nat :=
  match createAndMint snapOut.1 2 (10 ^ 15) [2] 43 6 6 with
  | .ok o => o
  | .error _ => (snapOut.1, 0, 0)

/-- Concrete upgradeable snapshot registry: owner 7, freshly initialized. -/
def uInit : UState := initU 7

/-- Result of the owner of `sAfter` shortening the cooldown to 1. -/
def csOut : State × Nat × Nat :=
  match setCooldown sAfter 7 1 with
  | .ok o => o
  | .error _ => (sAfter, 0, 0)

/-- Anatomy of a successful `placePixel`: the checks that must have passed
and the exact resulting state. -/
theorem placePixel_ok {s : State} {sender now x y color : Nat} {t : State}
    (h : placePixel s sender now x y color = .ok t) :
    x < WIDTH ∧ y < HEIGHT ∧ color < PALETTE_SIZE ∧
    (s.lastActionTime sender = 0 ∨ s.lastActionTime sender + s.cooldown ≤ now) ∧
    t = { s with
      pixels := fun i =>
        if i = y * WIDTH + x then
          { color := color, lastPlacer := sender, lastPlacedAt := now % 2 ^ 40 }
        else s.pixels i,
      lastActionTime := fun a => if a = sender then now else s.lastActionTime a } := by
  unfold placePixel at h
  split_ifs at h with h1 h2 h3 h4
  injection h with h5
  exact ⟨Nat.not_le.mp h1, Nat.not_le.mp h2, Nat.not_le.mp h3,
    (not_and_or.mp h4).imp not_not.mp Nat.not_lt.mp, h5.symm⟩

/-- Anatomy of a successful `setCooldown`. -/
theorem setCooldown_ok {s : State} {sender d : Nat} {out : State × Nat × Nat}
    (h : setCooldown s sender d = .ok out) :
    sender = s.owner ∧ out = ({ s with cooldown := d }, s.cooldown, d) := by
  unfold setCooldown at h
  split_ifs at h with h1
  injection h with h2
  exact ⟨not_not.mp h1, h2.symm⟩

/-- C1: `placePixel` validates in the fixed order x-bound, y-bound, color,
and only then consults the cooldown: a request with an out-of-range
coordinate or invalid color reports that bounds/value error in every state —
never `CooldownActive`, even when the caller's cooldown is still running. -/
theorem placePixel_validation_order (s : State) (sender now x y color : Nat) :
    (WIDTH ≤ x →
      placePixel s sender now x y color = .error (.XOutOfBounds x WIDTH)) ∧
    (x < WIDTH → HEIGHT ≤ y →
      placePixel s sender now x y color = .error (.YOutOfBounds y HEIGHT)) ∧
    (x < WIDTH → y < HEIGHT → PALETTE_SIZE ≤ color →
      placePixel s sender now x y color =
        .error (.InvalidColor color PALETTE_SIZE)) ∧
    (∀ r, WIDTH ≤ x ∨ HEIGHT ≤ y ∨ PALETTE_SIZE ≤ color →
      placePixel s sender now x y color ≠ .error (.CooldownActive r)) := by
  refine ⟨fun h1 => ?_, fun h1 h2 => ?_, fun h1 h2 h3 => ?_, fun r hd => ?_⟩
  · unfold placePixel; rw [if_pos h1]
  · unfold placePixel; rw [if_neg (Nat.not_le.mpr h1), if_pos h2]
  · unfold placePixel
    rw [if_neg (Nat.not_le.mpr h1), if_neg (Nat.not_le.mpr h2), if_pos h3]
  · unfold placePixel
    rcases hd with h | h | h
    · rw [if_pos h]; simp
    · by_cases hx : WIDTH ≤ x
      · rw [if_pos hx]; simp
      · rw [if_neg hx, if_pos h]; simp
    · by_cases hx : WIDTH ≤ x
      · rw [if_pos hx]; simp
      · rw [if_neg hx]
        by_cases hy : HEIGHT ≤ y
        · rw [if_pos hy]; simp
        · rw [if_neg hy, if_pos h]; simp

/-- C1 witness: actor 1 in `sAfter` is still cooling down at time 101, yet
an out-of-range x or an invalid color reports the bounds/value error and is
never reported as `CooldownActive`. -/
theorem placePixel_validation_order_inst :
    placePixel sAfter 1 101 64 0 0 = .error (.XOutOfBounds 64 64) ∧
    placePixel sAfter 1 101 0 0 40 = .error (.InvalidColor 40 32) :=
  ⟨(placePixel_validation_order sAfter 1 101 64 0 0).1 (by decide),
    (placePixel_validation_order sAfter 1 101 0 0 40).2.2.1
      (by decide) (by decide) (by decide)⟩

/-- C2: `getRemainingCooldown` is exactly the spec's formula on the stored
state (0 when the actor has no recorded action or the window has elapsed,
the pending difference otherwise), `canPlace` is true exactly when it is 0,
and a `placePixel` rejected for cooldown fails with `CooldownActive`
carrying exactly that value. -/
theorem cooldown_semantics (s : State) (user now : Nat) :
    getRemainingCooldown s user now =
      (if s.lastActionTime user = 0 ∨ s.lastActionTime user + s.cooldown ≤ now
        then 0 else s.lastActionTime user + s.cooldown - now) ∧
    (canPlace s user now = true ↔ getRemainingCooldown s user now = 0) ∧
    (∀ x y color, x < WIDTH → y < HEIGHT → color < PALETTE_SIZE →
      getRemainingCooldown s user now ≠ 0 →
      placePixel s user now x y color =
        .error (.CooldownActive (getRemainingCooldown s user now))) := by
  by_cases h0 : s.lastActionTime user = 0
  · refine ⟨by simp [getRemainingCooldown, h0], by simp [canPlace, getRemainingCooldown, h0], ?_⟩
    intro x y color _ _ _ hne
    exact absurd (by simp [getRemainingCooldown, h0]) hne
  · by_cases hc : s.lastActionTime user + s.cooldown ≤ now
    · refine ⟨by simp [getRemainingCooldown, h0, hc],
        by simp [canPlace, getRemainingCooldown, h0, hc], ?_⟩
      intro x y color _ _ _ hne
      exact absurd (by simp [getRemainingCooldown, h0, hc]) hne
    · refine ⟨by simp [getRemainingCooldown, h0, hc], ?_, ?_⟩
      · simp [canPlace, getRemainingCooldown, h0, hc, Nat.sub_eq_zero_iff_le]
      · intro x y color hx hy hcol _
        unfold placePixel
        rw [if_neg (Nat.not_le.mpr hx), if_neg (Nat.not_le.mpr hy),
          if_neg (Nat.not_le.mpr hcol), if_pos ⟨h0, Nat.not_le.mp hc⟩]
        simp [getRemainingCooldown, h0, hc]

/-- C2 witness: in `sAfter` at time 101 actor 1 has 59 seconds remaining;
`canPlace` agrees with the formula and the cooldown rejection carries
exactly 59. -/
theorem cooldown_semantics_inst :
    (canPlace sAfter 1 101 = true ↔ getRemainingCooldown sAfter 1 101 = 0) ∧
    placePixel sAfter 1 101 0 0 3 = .error (.CooldownActive 59) := by
  have h := (cooldown_semantics sAfter 1 101).2.2 0 0 3
    (by decide) (by decide) (by decide) (by decide)
  have h59 : getRemainingCooldown sAfter 1 101 = 59 := by decide
  rw [h59] at h
  exact ⟨(cooldown_semantics sAfter 1 101).2.1, h⟩

/-- C8 counterexample: the claim says the single-cell read at x = 64 ≥ W
must fail with an OutOfBounds error, but `getPixel` has no bounds check and
returns a cell. -/
theorem getPixel_no_bounds_check_cex :
    getPixel pixInit 64 0 = .ok { color := 0, lastPlacer := 0, lastPlacedAt := 0 } := rfl

/-- C8 (amended): `getPixel(x, y)` never fails: it returns the pixel at
linear index `y * WIDTH + x` unconditionally, so an out-of-range `x`
aliases a cell of a later row and linear indices at or beyond
`WIDTH * HEIGHT` read the zero cell.  It is a view with no side effects. -/
theorem getPixel_aliasing (s : State) (x y : Nat) :
    getPixel s x y = .ok (s.pixels (y * WIDTH + x)) := rfl

/-- C9 counterexample: a successful `placePixel` by actor 1 at time 0
yields a cell whose `lastPlacer` is set but whose stored `lastPlacedAt` is
0, and one by the zero address at time 5 yields a nonzero `lastPlacedAt`
with the never-written `lastPlacer` sentinel — both reachable states
violate the claimed equivalence, which quantifies over any actor and any
time. -/
theorem cell_invariant_cex :
    (placePixel pixInit 1 0 0 0 1 = .ok pixT0 ∧
      (pixT0.pixels 0).lastPlacer = 1 ∧ (pixT0.pixels 0).lastPlacedAt = 0) ∧
    (placePixel pixInit 0 5 0 0 1 = .ok pixA0 ∧
      (pixA0.pixels 0).lastPlacer = 0 ∧ (pixA0.pixels 0).lastPlacedAt = 5) :=
  ⟨⟨rfl, by decide, by decide⟩, ⟨rfl, by decide, by decide⟩⟩

/-- C9 (amended): all cells start in the zero state, and every successful
`placePixel` preserves the equivalence `lastPlacedAt = 0 ↔ lastPlacer = 0`
provided the actor is not the zero-address sentinel and the stored `uint40`
write time `now % 2 ^ 40` is nonzero (the original claim's unrestricted
actors and times fail, e.g. at `now = 0` — see the counterexample). -/
theorem cell_invariant_amended :
    (∀ owner cooldown, CellInv (Pixelate.initState owner cooldown)) ∧
    (∀ s t sender now x y color, CellInv s → sender ≠ 0 → now % 2 ^ 40 ≠ 0 →
      placePixel s sender now x y color = .ok t → CellInv t) := by
  constructor
  · intro owner cooldown i; exact Iff.rfl
  · intro s t sender now x y color hinv hs hn h
    obtain ⟨-, -, -, -, ht⟩ := placePixel_ok h
    subst ht
    intro i
    dsimp only
    by_cases hi : i = y * WIDTH + x
    · rw [if_pos hi]
      exact iff_of_false hn hs
    · rw [if_neg hi]
      exact hinv i

/-- C9 witness: the amended preservation step applied to the concrete
write producing `sAfter`, starting from the freshly initialized canvas. -/
theorem cell_invariant_amended_inst : CellInv sAfter :=
  cell_invariant_amended.2 pixInit sAfter 1 100 0 0 3
    (fun _ => Iff.rfl) (by decide) (by decide) rfl

/-- C10 counterexample: at `now = 2 ^ 40` the stored cell is not
`{color, actor, now}`: the `uint40` store truncates the write time to 0. -/
theorem placePixel_frame_cex :
    placePixel pixInit 1 (2 ^ 40) 0 0 1 = .ok pixT40 ∧
    (pixT40.pixels 0).lastPlacedAt = 0 ∧ 0 < (2 : Nat) ^ 40 :=
  ⟨rfl, by decide, by decide⟩

/-- C10 (amended): a successful `placePixel(x, y, color)` by `sender` at
`now` mutates only the cell at linear index `y * WIDTH + x` — set to
`{color, sender, now % 2 ^ 40}`, the `uint40`-truncated write time — and
`lastActionTime sender`, set to `now`; every other cell, every other
actor's timestamp, the cooldown duration and the owner are unchanged. -/
theorem placePixel_frame_amended (s : State) (sender now x y color : Nat)
    (t : State) (h : placePixel s sender now x y color = .ok t) :
    t.pixels (y * WIDTH + x) =
      { color := color, lastPlacer := sender, lastPlacedAt := now % 2 ^ 40 } ∧
    (∀ i, i ≠ y * WIDTH + x → t.pixels i = s.pixels i) ∧
    t.lastActionTime sender = now ∧
    (∀ a, a ≠ sender → t.lastActionTime a = s.lastActionTime a) ∧
    t.cooldown = s.cooldown ∧ t.owner = s.owner := by
  obtain ⟨-, -, -, -, ht⟩ := placePixel_ok h
  subst ht
  exact ⟨by simp, fun i hi => by simp [hi], by simp,
    fun a ha => by simp [ha], rfl, rfl⟩

/-- C10 witness: the amended frame condition applied to the concrete write
producing `sAfter`. -/
theorem placePixel_frame_amended_inst :
    sAfter.pixels 0 = { color := 3, lastPlacer := 1, lastPlacedAt := 100 } ∧
    sAfter.lastActionTime 1 = 100 ∧ sAfter.cooldown = 60 := by
  obtain ⟨h1, -, h3, -, h5, -⟩ :=
    placePixel_frame_amended pixInit 1 100 0 0 3 sAfter rfl
  exact ⟨h1, h3, h5⟩

/-- C3: `getCanvasHash` is a pure function of the cells' color values only:
it is the digest of the `WIDTH * HEIGHT` color bytes taken in strict
linear-index order, so any two grid states with identical colors at every
linear index — whatever writer/time provenance their cells carry — hash
identically; the views being pure functions of the state, repeated calls
with no intervening writes return the same digest and mutate nothing. -/
theorem canvasHash_content_only (digest : List Nat → Nat) (s t : State) :
    getCanvasHash digest s = digest (canvasBytes s) ∧
    ((∀ i, i < WIDTH * HEIGHT → (s.pixels i).color = (t.pixels i).color) →
      getCanvasHash digest s = getCanvasHash digest t) := by
  refine ⟨rfl, fun h => ?_⟩
  unfold getCanvasHash canvasBytes
  exact congrArg digest
    (List.map_congr_left (fun i hi => h i (List.mem_range.mp hi)))

/-- C3 witness: `pixInit` and `tProv` differ in cell 0's provenance but
have identical colors everywhere, and hash identically under a concrete
digest. -/
theorem canvasHash_content_only_inst :
    (tProv.pixels 0).lastPlacer = 5 ∧ (pixInit.pixels 0).lastPlacer = 0 ∧
    getCanvasHash digestFold pixInit = getCanvasHash digestFold tProv := by
  refine ⟨by decide, by decide,
    (canvasHash_content_only digestFold pixInit tProv).2 ?_⟩
  intro i _
  by_cases h : i = 0
  · subst h; rfl
  · simp [pixInit, Pixelate.initState, tProv, h]

/-- C7: `setCooldown` fails with the owner check unless the caller is the
administrator; on success it replaces the duration and signals
`(oldCooldown, newCooldown)`; and because the remaining-cooldown formula
always reads the current duration, after the owner shortens the cooldown
an actor still blocked under the old duration whose last action lies at
least `newCooldown` in the past immediately has remaining 0 and can
successfully place a pixel. -/
theorem setCooldown_semantics :
    (∀ (s : State) sender d, sender ≠ s.owner →
      setCooldown s sender d = .error .NotAuthorized) ∧
    (∀ (s : State) d,
      setCooldown s s.owner d = .ok ({ s with cooldown := d }, s.cooldown, d)) ∧
    (∀ (s : State) user now d x y color out,
      getRemainingCooldown s user now ≠ 0 →
      s.lastActionTime user + d ≤ now →
      x < WIDTH → y < HEIGHT → color < PALETTE_SIZE →
      setCooldown s s.owner d = .ok out →
      getRemainingCooldown out.1 user now = 0 ∧
      ∃ t, placePixel out.1 user now x y color = .ok t) := by
  refine ⟨fun s sender d h => ?_, fun s d => ?_,
    fun s user now d x y color out hrem hd hx hy hcol hok => ?_⟩
  · unfold setCooldown; rw [if_pos h]
  · unfold setCooldown; rw [if_neg (by simp)]
  · obtain ⟨-, hout⟩ := setCooldown_ok hok
    subst hout
    constructor
    · show (if s.lastActionTime user = 0 then 0
        else if s.lastActionTime user + d ≤ now then 0
        else s.lastActionTime user + d - now) = 0
      by_cases h0 : s.lastActionTime user = 0
      · rw [if_pos h0]
      · rw [if_neg h0, if_pos hd]
    · have hcond : ¬(({ s with cooldown := d } : State).lastActionTime user ≠ 0 ∧
          now < ({ s with cooldown := d } : State).lastActionTime user +
            ({ s with cooldown := d } : State).cooldown) := by
        rintro ⟨-, hlt⟩
        exact absurd hd (Nat.not_le.mpr hlt)
      have hplace : placePixel ({ s with cooldown := d } : State) user now x y color =
          .ok { ({ s with cooldown := d } : State) with
            pixels := fun i =>
              if i = y * WIDTH + x then
                { color := color, lastPlacer := user, lastPlacedAt := now % 2 ^ 40 }
              else ({ s with cooldown := d } : State).pixels i,
            lastActionTime := fun a =>
              if a = user then now
              else ({ s with cooldown := d } : State).lastActionTime a } := by
        unfold placePixel
        rw [if_neg (Nat.not_le.mpr hx), if_neg (Nat.not_le.mpr hy),
          if_neg (Nat.not_le.mpr hcol), if_neg hcond]
      exact ⟨_, hplace⟩

/-- C7 witness: actor 1, blocked in `sAfter` at time 101 with 59 seconds
remaining under cooldown 60, has remaining 0 the moment the owner shortens
the cooldown to 1, and can place a pixel. -/
theorem setCooldown_semantics_inst :
    getRemainingCooldown csOut.1 1 101 = 0 ∧
    ∃ t, placePixel csOut.1 1 101 0 0 3 = .ok t :=
  setCooldown_semantics.2.2 sAfter 1 101 1 0 0 3 csOut
    (by decide) (by decide) (by decide) (by decide) (by decide) rfl

/-- Anatomy of a successful `createAndMint`: the checks that must have
passed, the returned ids, and the exact resulting state. -/
theorem createAndMint_ok {s : SState} {sender value : Nat} {uri : List Nat}
    {ch bn ts : Nat} {t : SState} {sid tid : Nat}
    (h : createAndMint s sender value uri ch bn ts = .ok (t, sid, tid)) :
    uri.length ≠ 0 ∧ s.mintPrice ≤ value ∧ s.hashToSnapshot ch = 0 ∧
    sid = s.nextSnapshotId + 1 ∧ tid = s.nextTokenId ∧
    t = { s with
      nextSnapshotId := s.nextSnapshotId + 1,
      nextTokenId := s.nextTokenId + 1,
      snapshots := fun i =>
        if i = s.nextSnapshotId + 1 then
          some { blockNumber := bn, timestamp := ts, canvasHash := ch,
                 imageURI := uri, creator := sender }
        else s.snapshots i,
      hashToSnapshot := fun h2 =>
        if h2 = ch then s.nextSnapshotId + 1 else s.hashToSnapshot h2,
      userSnapshots := fun u =>
        if u = sender then s.userSnapshots u ++ [s.nextSnapshotId + 1]
        else s.userSnapshots u,
      tokenToSnapshot := fun k =>
        if k = s.nextTokenId then s.nextSnapshotId + 1 else s.tokenToSnapshot k,
      balance := s.balance + value } := by
  unfold createAndMint at h
  split_ifs at h with h1 h2 h3
  injection h with h4
  injection h4 with hA hBC
  injection hBC with hB hC
  exact ⟨h1, Nat.not_lt.mp h2, not_not.mp h3, hB.symm, hC.symm, hA.symm⟩

/-- Anatomy of a successful `setMintPrice`. -/
theorem setMintPrice_ok {s : SState} {sender p : Nat} {t : SState}
    (h : setMintPrice s sender p = .ok t) :
    sender = s.owner ∧ t = { s with mintPrice := p } := by
  unfold setMintPrice at h
  split_ifs at h with h1
  injection h with h2
  exact ⟨not_not.mp h1, h2.symm⟩

/-- Anatomy of a successful `withdraw`. -/
theorem withdraw_ok {s : SState} {sender : Nat} {transferOk : Bool} {t : SState}
    (h : withdraw s sender transferOk = .ok t) :
    sender = s.owner ∧ t = { s with balance := 0 } := by
  unfold withdraw at h
  split_ifs at h with h1 h2
  injection h with h3
  exact ⟨not_not.mp h1, h3.symm⟩

/-- Anatomy of a successful upgradeable `mint`. -/
theorem mint_ok {digest : List Nat → Nat} {s : UState} {sender value : Nat}
    {data : List Nat} {bn ts : Nat} {t : UState} {tok : Nat}
    (h : mint digest s sender value data bn ts = .ok (t, tok)) :
    s.mintPrice ≤ value ∧ data.length = TOTAL_PIXELS ∧
    s.hashToToken (digest data) = 0 ∧ tok = s.nextTokenId + 1 ∧
    t = { s with
      nextTokenId := s.nextTokenId + 1,
      snapshots := fun i =>
        if i = s.nextTokenId + 1 then
          some { blockNumber := bn, timestamp := ts,
                 canvasHash := digest data, creator := sender }
        else s.snapshots i,
      pixelData := fun i =>
        if i = s.nextTokenId + 1 then data else s.pixelData i,
      hashToToken := fun h2 =>
        if h2 = digest data then s.nextTokenId + 1 else s.hashToToken h2,
      userTokens := fun u =>
        if u = sender then s.userTokens u ++ [s.nextTokenId + 1]
        else s.userTokens u,
      balance := s.balance + value } := by
  unfold mint at h
  split_ifs at h with h1 h2 h3
  injection h with h4
  injection h4 with hA hB
  exact ⟨Nat.not_lt.mp h1, not_not.mp h2, not_not.mp h3, hB.symm, hA.symm⟩

/-- A `createAndMint` against an already-registered hash fails with the
registered id (with the value and image-reference checks passing). -/
theorem createAndMint_dup {s : SState} {ch : Nat} (sender value : Nat)
    (uri : List Nat) (bn ts : Nat) (hu : uri.length ≠ 0)
    (hv : s.mintPrice ≤ value) (hh : s.hashToSnapshot ch ≠ 0) :
    createAndMint s sender value uri ch bn ts =
      .error (.SnapshotAlreadyExists ch (s.hashToSnapshot ch)) := by
  unfold createAndMint
  rw [if_neg hu, if_neg (Nat.not_lt.mpr hv), if_pos hh]

/-- A `createAndMint` with valid inputs against a fresh hash succeeds. -/
theorem createAndMint_fresh {s : SState} {ch : Nat} (sender value : Nat)
    (uri : List Nat) (bn ts : Nat) (hu : uri.length ≠ 0)
    (hv : s.mintPrice ≤ value) (hh : s.hashToSnapshot ch = 0) :
    ∃ t sid tid, createAndMint s sender value uri ch bn ts = .ok (t, sid, tid) := by
  have hok : createAndMint s sender value uri ch bn ts =
      .ok ({ s with
        nextSnapshotId := s.nextSnapshotId + 1,
        nextTokenId := s.nextTokenId + 1,
        snapshots := fun i =>
          if i = s.nextSnapshotId + 1 then
            some { blockNumber := bn, timestamp := ts, canvasHash := ch,
                   imageURI := uri, creator := sender }
          else s.snapshots i,
        hashToSnapshot := fun h2 =>
          if h2 = ch then s.nextSnapshotId + 1 else s.hashToSnapshot h2,
        userSnapshots := fun u =>
          if u = sender then s.userSnapshots u ++ [s.nextSnapshotId + 1]
          else s.userSnapshots u,
        tokenToSnapshot := fun k =>
          if k = s.nextTokenId then s.nextSnapshotId + 1 else s.tokenToSnapshot k,
        balance := s.balance + value }, s.nextSnapshotId + 1, s.nextTokenId) := by
    unfold createAndMint
    rw [if_neg hu, if_neg (Nat.not_lt.mpr hv), if_neg (not_not.mpr hh)]
  exact ⟨_, _, _, hok⟩

/-- C4: snapshot dedup on the content hash.  With a non-empty image
reference, payment at least the mint price and a not-yet-registered hash
`ch`, `createAndMint` succeeds and records `ch ↦ snapshotId`; any second
creating call against the same hash then fails with
`SnapshotAlreadyExists ch snapshotId` and — a revert carrying no state —
creates nothing; and a hash change (any fresh `ch2 ≠ ch`) permits a new
snapshot.  The second conjunct proves the same dedup for the upgradeable
`mint`, whose hash is the digest of the supplied payload. -/
theorem snapshot_dedup :
    (∀ (s : SState) sender value uri ch bn ts, uri.length ≠ 0 →
      s.mintPrice ≤ value → s.hashToSnapshot ch = 0 →
      ∃ t sid tid, createAndMint s sender value uri ch bn ts = .ok (t, sid, tid) ∧
        t.hashToSnapshot ch = sid ∧ sid ≠ 0 ∧
        (∀ sender2 value2 uri2 bn2 ts2, uri2.length ≠ 0 →
          t.mintPrice ≤ value2 →
          createAndMint t sender2 value2 uri2 ch bn2 ts2 =
            .error (.SnapshotAlreadyExists ch sid)) ∧
        (∀ ch2, ch2 ≠ ch → s.hashToSnapshot ch2 = 0 →
          ∀ sender2 value2 uri2 bn2 ts2, uri2.length ≠ 0 →
            t.mintPrice ≤ value2 →
            ∃ t2 sid2 tid2, createAndMint t sender2 value2 uri2 ch2 bn2 ts2 =
              .ok (t2, sid2, tid2))) ∧
    (∀ (u : UState) digest sender value data bn ts,
      u.mintPrice ≤ value → data.length = TOTAL_PIXELS →
      u.hashToToken (digest data) = 0 →
      ∃ u1 tok, mint digest u sender value data bn ts = .ok (u1, tok) ∧
        u1.hashToToken (digest data) = tok ∧ tok ≠ 0 ∧
        (∀ sender2 value2 data2 bn2 ts2, u1.mintPrice ≤ value2 →
          data2.length = TOTAL_PIXELS → digest data2 = digest data →
          mint digest u1 sender2 value2 data2 bn2 ts2 =
            .error (.SnapshotAlreadyExists (digest data) tok))) := by
  constructor
  · intro s sender value uri ch bn ts hu hv hh
    obtain ⟨t, sid, tid, hok⟩ := createAndMint_fresh sender value uri bn ts hu hv hh
    obtain ⟨-, -, -, hsid, htid, ht⟩ := createAndMint_ok hok
    subst hsid htid ht
    refine ⟨_, _, _, hok, by simp, Nat.succ_ne_zero _, ?_, ?_⟩
    · intro sender2 value2 uri2 bn2 ts2 hu2 hv2
      have hdup := @createAndMint_dup _ ch sender2 value2 uri2 bn2 ts2
        hu2 hv2 (by simp)
      simpa using hdup
    · intro ch2 hne hh2 sender2 value2 uri2 bn2 ts2 hu2 hv2
      exact createAndMint_fresh sender2 value2 uri2 bn2 ts2 hu2 hv2
        (by simp [hne, hh2])
  · intro u digest sender value data bn ts hv hlen hh
    have hok : mint digest u sender value data bn ts =
        .ok ({ u with
          nextTokenId := u.nextTokenId + 1,
          snapshots := fun i =>
            if i = u.nextTokenId + 1 then
              some { blockNumber := bn, timestamp := ts,
                     canvasHash := digest data, creator := sender }
            else u.snapshots i,
          pixelData := fun i =>
            if i = u.nextTokenId + 1 then data else u.pixelData i,
          hashToToken := fun h2 =>
            if h2 = digest data then u.nextTokenId + 1 else u.hashToToken h2,
          userTokens := fun u2 =>
            if u2 = sender then u.userTokens u2 ++ [u.nextTokenId + 1]
            else u.userTokens u2,
          balance := u.balance + value }, u.nextTokenId + 1) := by
      unfold mint
      rw [if_neg (Nat.not_lt.mpr hv), if_neg (not_not.mpr hlen),
        if_neg (not_not.mpr hh)]
    refine ⟨_, _, hok, by simp, Nat.succ_ne_zero _, ?_⟩
    intro sender2 value2 data2 bn2 ts2 hv2 hlen2 hdig
    unfold mint
    rw [if_neg (Nat.not_lt.mpr hv2), if_neg (not_not.mpr hlen2), hdig,
      if_pos (by simp)]
    simp

/-- C4 witness: a concrete first snapshot against hash 42 from the fresh
registry succeeds and records the hash; a second call against hash 42 is
rejected with the recorded id, while a call against the fresh hash 43
succeeds again. -/
theorem snapshot_dedup_inst :
    createAndMint snapInit 1 (10 ^ 15) [1] 42 5 5 =
      .ok (snapOut.1, snapOut.2.1, snapOut.2.2) ∧
    snapOut.1.hashToSnapshot 42 = snapOut.2.1 ∧
    createAndMint snapOut.1 2 (10 ^ 15) [2] 42 6 6 =
      .error (.SnapshotAlreadyExists 42 snapOut.2.1) ∧
    ∃ t2 sid2 tid2, createAndMint snapOut.1 2 (10 ^ 15) [2] 43 6 6 =
      .ok (t2, sid2, tid2) := by
  obtain ⟨t, sid, tid, hok, hrec, hnz, hdup, hfresh⟩ :=
    snapshot_dedup.1 snapInit 1 (10 ^ 15) [1] 42 5 5
      (by decide) (by decide) (by decide)
  have hcan : createAndMint snapInit 1 (10 ^ 15) [1] 42 5 5 =
      .ok (snapOut.1, snapOut.2.1, snapOut.2.2) := rfl
  rw [hcan] at hok
  injection hok with hok1
  injection hok1 with hA hBC
  injection hBC with hB hC
  subst hA hB hC
  exact ⟨hcan, hrec, hdup 2 (10 ^ 15) [2] 6 6 (by decide) (by decide),
    hfresh 43 (by decide) (by decide) 2 (10 ^ 15) [2] 6 6 (by decide) (by decide)⟩

/-- C5: atomic failure.  Every failing mutating call reverts, and a revert
carries no state: the post-call chain state (the corresponding `...Run`
wrapper) is exactly the pre-call state, so every cell, every actor's
`lastActionTime`, the cooldown duration, the snapshot table, the hash
index, the user snapshot lists, the id counters and the accumulated
balance are untouched on every failure path of `placePixel`,
`setCooldown`, `createAndMint`, `setMintPrice`, `withdraw` and the
upgradeable `mint`. -/
theorem atomic_failure_rollback :
    (∀ (s : State) sender now x y color e,
      placePixel s sender now x y color = .error e →
      placePixelRun s sender now x y color = s) ∧
    (∀ (s : State) sender d e, setCooldown s sender d = .error e →
      setCooldownRun s sender d = s) ∧
    (∀ (s : SState) sender value uri ch bn ts e,
      createAndMint s sender value uri ch bn ts = .error e →
      createAndMintRun s sender value uri ch bn ts = s) ∧
    (∀ (s : SState) sender p e, setMintPrice s sender p = .error e →
      setMintPriceRun s sender p = s) ∧
    (∀ (s : SState) sender transferOk e,
      withdraw s sender transferOk = .error e →
      withdrawRun s sender transferOk = s) ∧
    (∀ (u : UState) digest sender value data bn ts e,
      mint digest u sender value data bn ts = .error e →
      mintRun digest u sender value data bn ts = u) := by
  refine ⟨fun s sender now x y color e h => ?_, fun s sender d e h => ?_,
    fun s sender value uri ch bn ts e h => ?_, fun s sender p e h => ?_,
    fun s sender transferOk e h => ?_,
    fun u digest sender value data bn ts e h => ?_⟩
  · unfold placePixelRun; rw [h]
  · unfold setCooldownRun; rw [h]
  · unfold createAndMintRun; rw [h]
  · unfold setMintPriceRun; rw [h]
  · unfold withdrawRun; rw [h]
  · unfold mintRun; rw [h]

/-- C5 witness: one concrete failing call of each mutating operation — an
out-of-range write, two unauthorized admin calls, an underpaid snapshot, a
rejected payout transfer and a malformed mint payload — each leaving its
pre-call state unchanged. -/
theorem atomic_failure_rollback_inst :
    placePixelRun pixInit 1 100 64 0 0 = pixInit ∧
    setCooldownRun pixInit 1 5 = pixInit ∧
    createAndMintRun snapInit 1 0 [1] 42 5 5 = snapInit ∧
    setMintPriceRun snapInit 1 5 = snapInit ∧
    withdrawRun snapInit 7 false = snapInit ∧
    mintRun digestFold uInit 1 0 [] 5 5 = uInit :=
  ⟨atomic_failure_rollback.1 pixInit 1 100 64 0 0 (.XOutOfBounds 64 64) rfl,
   atomic_failure_rollback.2.1 pixInit 1 5 .NotAuthorized rfl,
   atomic_failure_rollback.2.2.1 snapInit 1 0 [1] 42 5 5
     (.InsufficientPayment (10 ^ 15) 0) rfl,
   atomic_failure_rollback.2.2.2.1 snapInit 1 5 .NotAuthorized rfl,
   atomic_failure_rollback.2.2.2.2.1 snapInit 7 false .WithdrawFailed rfl,
   atomic_failure_rollback.2.2.2.2.2 uInit digestFold 1 0 [] 5 5
     (.InvalidPixelDataLength 0 TOTAL_PIXELS) rfl⟩

/-- A snapshot transaction never decreases either id counter. -/
theorem SnapStep.counters {s t : SState} (h : SnapStep s t) :
    s.nextSnapshotId ≤ t.nextSnapshotId ∧ s.nextTokenId ≤ t.nextTokenId := by
  cases h with
  | create hok =>
    obtain ⟨-, -, -, -, -, ht⟩ := createAndMint_ok hok
    subst ht
    exact ⟨Nat.le_succ _, Nat.le_succ _⟩
  | setPrice hok =>
    obtain ⟨-, ht⟩ := setMintPrice_ok hok
    subst ht
    exact ⟨le_refl _, le_refl _⟩
  | withdrawStep hok =>
    obtain ⟨-, ht⟩ := withdraw_ok hok
    subst ht
    exact ⟨le_refl _, le_refl _⟩

/-- A snapshot transaction only ever appends to a user's snapshot list. -/
theorem SnapStep.userAppend {s t : SState} (h : SnapStep s t) (u : Nat) :
    ∃ l, t.userSnapshots u = s.userSnapshots u ++ l := by
  cases h with
  | @create sender value uri ch bn ts sid tid hok =>
    obtain ⟨-, -, -, -, -, ht⟩ := createAndMint_ok hok
    subst ht
    dsimp only
    by_cases hu : u = sender
    · rw [if_pos hu]; exact ⟨_, rfl⟩
    · rw [if_neg hu]; exact ⟨[], (List.append_nil _).symm⟩
  | setPrice hok =>
    obtain ⟨-, ht⟩ := setMintPrice_ok hok
    subst ht
    exact ⟨[], (List.append_nil _).symm⟩
  | withdrawStep hok =>
    obtain ⟨-, ht⟩ := withdraw_ok hok
    subst ht
    exact ⟨[], (List.append_nil _).symm⟩

/-- A snapshot transaction preserves the registry invariant and never
changes an already-assigned snapshot entry or token binding. -/
theorem SnapStep.inv_preserve {s t : SState} (h : SnapStep s t)
    (hi : SnapInv s) :
    SnapInv t ∧
    (∀ id, (s.snapshots id).isSome = true → t.snapshots id = s.snapshots id) ∧
    (∀ k, s.tokenToSnapshot k ≠ 0 → t.tokenToSnapshot k = s.tokenToSnapshot k) := by
  obtain ⟨hi1, hi0, hi2⟩ := hi
  cases h with
  | @create sender value uri ch bn ts sid tid hok =>
    obtain ⟨-, -, -, -, -, ht⟩ := createAndMint_ok hok
    subst ht
    refine ⟨⟨?_, ?_, ?_⟩, ?_, ?_⟩
    · intro id hid
      dsimp only at hid ⊢
      rw [if_neg (by omega)]
      exact hi1 id (by omega)
    · dsimp only
      rw [if_neg (by omega)]
      exact hi0
    · intro k hk
      dsimp only at hk ⊢
      rw [if_neg (by omega)]
      exact hi2 k (by omega)
    · intro id hsome
      dsimp only
      by_cases hid : id = s.nextSnapshotId + 1
      · subst hid
        rw [hi1 _ (Nat.lt_succ_self _)] at hsome
        exact absurd hsome (by simp)
      · rw [if_neg hid]
    · intro k hk
      dsimp only
      by_cases hkk : k = s.nextTokenId
      · subst hkk
        exact absurd (hi2 _ (le_refl _)) hk
      · rw [if_neg hkk]
  | setPrice hok =>
    obtain ⟨-, ht⟩ := setMintPrice_ok hok
    subst ht
    exact ⟨⟨hi1, hi0, hi2⟩, fun id _ => rfl, fun k _ => rfl⟩
  | withdrawStep hok =>
    obtain ⟨-, ht⟩ := withdraw_ok hok
    subst ht
    exact ⟨⟨hi1, hi0, hi2⟩, fun id _ => rfl, fun k _ => rfl⟩

/-- Counters are monotone along any chain of snapshot transactions. -/
theorem reachFrom_counters {s t : SState} (h : ReachFrom SnapStep s t) :
    s.nextSnapshotId ≤ t.nextSnapshotId ∧ s.nextTokenId ≤ t.nextTokenId := by
  induction h with
  | refl => exact ⟨le_refl _, le_refl _⟩
  | tail hab hbc ih =>
    obtain ⟨h1, h2⟩ := SnapStep.counters hbc
    exact ⟨le_trans ih.1 h1, le_trans ih.2 h2⟩

/-- User snapshot lists only grow, by appending, along any chain of
snapshot transactions. -/
theorem reachFrom_userAppend {s t : SState} (h : ReachFrom SnapStep s t)
    (u : Nat) : ∃ l, t.userSnapshots u = s.userSnapshots u ++ l := by
  induction h with
  | refl => exact ⟨[], (List.append_nil _).symm⟩
  | tail hab hbc ih =>
    obtain ⟨l1, hl1⟩ := ih
    obtain ⟨l2, hl2⟩ := SnapStep.userAppend hbc u
    exact ⟨l1 ++ l2, by rw [hl2, hl1, List.append_assoc]⟩

/-- The registry invariant propagates along any chain of snapshot
transactions, and assigned entries are never changed along the chain. -/
theorem reachFrom_inv_preserve {s t : SState} (hi : SnapInv s)
    (h : ReachFrom SnapStep s t) :
    SnapInv t ∧
    (∀ id, (s.snapshots id).isSome = true → t.snapshots id = s.snapshots id) ∧
    (∀ k, s.tokenToSnapshot k ≠ 0 → t.tokenToSnapshot k = s.tokenToSnapshot k) := by
  induction h with
  | refl => exact ⟨hi, fun id _ => rfl, fun k _ => rfl⟩
  | tail hab hbc ih =>
    obtain ⟨ihInv, ihSnap, ihTok⟩ := ih
    obtain ⟨stepInv, stepSnap, stepTok⟩ := SnapStep.inv_preserve hbc ihInv
    refine ⟨stepInv, fun id hsome => ?_, fun k hk => ?_⟩
    · rw [stepSnap id (by rw [ihSnap id hsome]; exact hsome), ihSnap id hsome]
    · rw [stepTok k (by rw [ihTok k hk]; exact hk), ihTok k hk]

/-- The freshly constructed registry satisfies the invariant. -/
theorem initS_inv (owner : Nat) : SnapInv (initS owner) :=
  ⟨fun _ _ => rfl, rfl, fun _ _ => rfl⟩

/-- C6: monotonic ids.  From a fresh registry the first successful
`createAndMint` returns snapshot id 1; any two successive successful
creations (the second from any state the first's post-state can reach)
return strictly increasing snapshot ids and strictly increasing token
ids; in any reachable state a successful creation assigns a
previously-unassigned snapshot id and token binding, and assigned
entries are never changed later — each id names exactly one snapshot and
each token exactly one binding; and `getUserSnapshots` grows by
appending the new id to the creator's list (other lists untouched), so
it lists the creator's snapshot ids in creation order. -/
theorem monotonic_ids :
    (∀ owner sender value uri ch bn ts t sid tid,
      createAndMint (initS owner) sender value uri ch bn ts = .ok (t, sid, tid) →
      sid = 1) ∧
    (∀ (s : SState) sender value uri ch bn ts t sid tid,
      createAndMint s sender value uri ch bn ts = .ok (t, sid, tid) →
      ∀ s2, ReachFrom SnapStep t s2 →
        ∀ sender2 value2 uri2 ch2 bn2 ts2 t2 sid2 tid2,
          createAndMint s2 sender2 value2 uri2 ch2 bn2 ts2 = .ok (t2, sid2, tid2) →
          sid < sid2 ∧ tid < tid2) ∧
    (∀ (s : SState), SnapReachable s →
      ∀ sender value uri ch bn ts t sid tid,
        createAndMint s sender value uri ch bn ts = .ok (t, sid, tid) →
        s.snapshots sid = none ∧ (t.snapshots sid).isSome = true ∧
        s.tokenToSnapshot tid = 0 ∧ t.tokenToSnapshot tid = sid) ∧
    (∀ (s1 : SState), SnapReachable s1 → ∀ s2, ReachFrom SnapStep s1 s2 →
      (∀ id, (s1.snapshots id).isSome = true →
        s2.snapshots id = s1.snapshots id) ∧
      (∀ k, s1.tokenToSnapshot k ≠ 0 →
        s2.tokenToSnapshot k = s1.tokenToSnapshot k)) ∧
    (∀ (s : SState) sender value uri ch bn ts t sid tid,
      createAndMint s sender value uri ch bn ts = .ok (t, sid, tid) →
      t.userSnapshots sender = s.userSnapshots sender ++ [sid] ∧
      (∀ u, u ≠ sender → t.userSnapshots u = s.userSnapshots u)) ∧
    (∀ (s1 s2 : SState), ReachFrom SnapStep s1 s2 →
      ∀ u, ∃ l, s2.userSnapshots u = s1.userSnapshots u ++ l) := by
  refine ⟨?_, ?_, ?_, ?_, ?_, ?_⟩
  · intro owner sender value uri ch bn ts t sid tid hok
    obtain ⟨-, -, -, hsid, -, -⟩ := createAndMint_ok hok
    exact hsid
  · intro s sender value uri ch bn ts t sid tid hok s2 hreach
      sender2 value2 uri2 ch2 bn2 ts2 t2 sid2 tid2 hok2
    obtain ⟨-, -, -, hsid, htid, ht⟩ := createAndMint_ok hok
    obtain ⟨-, -, -, hsid2, htid2, -⟩ := createAndMint_ok hok2
    obtain ⟨hc1, hc2⟩ := reachFrom_counters hreach
    subst ht
    dsimp only at hc1 hc2
    omega
  · intro s hs sender value uri ch bn ts t sid tid hok
    obtain ⟨owner, hinit⟩ := hs
    obtain ⟨⟨hi1, hi0, hi2⟩, -, -⟩ :=
      reachFrom_inv_preserve (initS_inv owner) hinit
    obtain ⟨-, -, -, hsid, htid, ht⟩ := createAndMint_ok hok
    subst hsid htid ht
    refine ⟨hi1 _ (Nat.lt_succ_self _), ?_, hi2 _ (le_refl _), ?_⟩
    · dsimp only
      rw [if_pos rfl]
      rfl
    · dsimp only
      rw [if_pos rfl]
  · intro s1 hs1 s2 hreach
    obtain ⟨owner, hinit⟩ := hs1
    obtain ⟨hinv, -, -⟩ := reachFrom_inv_preserve (initS_inv owner) hinit
    obtain ⟨-, hsnap, htok⟩ := reachFrom_inv_preserve hinv hreach
    exact ⟨hsnap, htok⟩
  · intro s sender value uri ch bn ts t sid tid hok
    obtain ⟨-, -, -, hsid, -, ht⟩ := createAndMint_ok hok
    subst hsid ht
    constructor
    · dsimp only
      rw [if_pos rfl]
    · intro u hu
      dsimp only
      rw [if_neg hu]
  · intro s1 s2 h u
    exact reachFrom_userAppend h u

/-- C6 witness: from the fresh registry the first snapshot gets id 1, and
a second snapshot with a different hash gets a strictly larger snapshot
id and a strictly larger token id. -/
theorem monotonic_ids_inst :
    snapOut.2.1 = 1 ∧ snapOut.2.1 < snapOut2.2.1 ∧ snapOut.2.2 < snapOut2.2.2 := by
  have h1 : createAndMint snapInit 1 (10 ^ 15) [1] 42 5 5 =
      .ok (snapOut.1, snapOut.2.1, snapOut.2.2) := rfl
  have h2 : createAndMint snapOut.1 2 (10 ^ 15) [2] 43 6 6 =
      .ok (snapOut2.1, snapOut2.2.1, snapOut2.2.2) := rfl
  have ha := monotonic_ids.1 7 1 (10 ^ 15) [1] 42 5 5
    snapOut.1 snapOut.2.1 snapOut.2.2 h1
  have hb := monotonic_ids.2.1 snapInit 1 (10 ^ 15) [1] 42 5 5
    snapOut.1 snapOut.2.1 snapOut.2.2 h1 snapOut.1 (ReachFrom.refl _)
    2 (10 ^ 15) [2] 43 6 6 snapOut2.1 snapOut2.2.1 snapOut2.2.2 h2
  exact ⟨ha, hb.1, hb.2⟩
